import Mathlib

/-!
Formal model of the DownThemAll! native messaging host
(`native/native_host.py`): the framed stdio channel (`read_message`,
`send_message`), the interactive download transfer loop
(`threaded_download`), and the command dispatcher (`main`), together
with theorems about the protocol and lifecycle properties the host is
expected to satisfy.

Bytes are modelled as natural numbers; an inbound byte stream is a
`List Nat` holding every byte that arrives before the stream closes,
so `sys.stdin.buffer.read(n)` on a stream `s` returns `s.take n`
(fewer than `n` bytes exactly when the stream closes early).
-/

namespace NativeHost

/-! ## Framed channel (native_host.py lines 27-40)

`struct.pack('<I', n)` / `struct.unpack('<I', raw)`: 4-byte unsigned
little-endian encoding.  `pack` raises `struct.error` when the value
does not fit in 32 bits, hence the `Option` in `send_frame`;
`unpack` raises when fewer than 4 bytes are supplied. -/

def le32enc (n : Nat) : List Nat :=
  [n % 256, n / 256 % 256, n / 65536 % 256, n / 16777216 % 256]

def le32dec : List Nat → Nat
  | [a, b, c, d] => a + 256 * b + 65536 * c + 16777216 * d
  | _ => 0

/-- Outcome of the raw framing part of `read_message` (lines 28-32):
`eos` models `return None` (empty `raw_length`); `headerError` models
the `struct.error` raised by `unpack` on a 1-3 byte prefix; `framed`
carries the bytes handed to `json.loads` (note line 32 takes whatever
`read(length)` returns, with no check that `length` bytes arrived). -/
inductive FrameRead where
  | eos : FrameRead
  | headerError (got : List Nat) : FrameRead
  | framed (data rest : List Nat) : FrameRead
deriving DecidableEq

/-- Lines 28-32 of `read_message`: read 4 prefix bytes, unpack the
little-endian length, read that many payload bytes. -/
def read_frame (s : List Nat) : FrameRead :=
  let raw := s.take 4
  if raw = [] then .eos
  else if raw.length < 4 then .headerError raw
  else .framed ((s.drop 4).take (le32dec raw)) (s.drop (4 + le32dec raw))

/-- Result of the full `read_message` (lines 27-33): `eos` is the
`None` return, `exn` an uncaught exception (`struct.error` or a
`json.loads` decode error), `msg` a decoded message together with the
bytes remaining on the stream. -/
inductive ReadResult (α : Type) where
  | eos : ReadResult α
  | exn : ReadResult α
  | msg (m : α) (rest : List Nat) : ReadResult α
deriving DecidableEq

/-- `read_message`, parameterised by the JSON decoder `loads`
(`json.loads` composed with utf-8 decoding is an external stdlib
collaborator; `none` models a raised decode error). -/
def read_message {α : Type} (loads : List Nat → Option α) (s : List Nat) : ReadResult α :=
  match read_frame s with
  | .eos => .eos
  | .headerError _ => .exn
  | .framed data rest =>
    match loads data with
    | some m => .msg m rest
    | none => .exn

/-- Lines 36-40 of `send_message` at the byte level: prefix the payload
with its packed length.  `none` models the `struct.error` raised by
`struct.pack('<I', len(encoded))` when the payload length exceeds
32 bits. -/
def send_frame (payload : List Nat) : Option (List Nat) :=
  if payload.length < 4294967296 then some (le32enc payload.length ++ payload) else none

/-- `send_message`, parameterised by the JSON encoder `dumps`
(`json.dumps(...).encode('utf-8')`, an external stdlib collaborator). -/
def send_message {α : Type} (dumps : α → List Nat) (m : α) : Option (List Nat) :=
  send_frame (dumps m)

/-- The two unsynchronized `sys.stdout.buffer.write` calls performed by
one `send_message` (lines 38-39): the packed length, then the payload.
There is no lock in the source; each element is one atomic `write`. -/
def sendOps (payload : List Nat) : List (List Nat) :=
  [le32enc payload.length, payload]

theorem le32_roundtrip (n : Nat) (h : n < 4294967296) : le32dec (le32enc n) = n := by
  simp only [le32enc, le32dec]
  omega

theorem read_frame_frame (p rest : List Nat) (h : p.length < 4294967296) :
    read_frame (le32enc p.length ++ p ++ rest) = .framed p rest := by
  have h4 : (le32enc p.length).length = 4 := by simp [le32enc]
  have hne : le32enc p.length ≠ [] := by simp [le32enc]
  have hdec : le32dec (le32enc p.length) = p.length := le32_roundtrip _ h
  simp only [read_frame, List.append_assoc]
  rw [List.take_left' h4, List.drop_left' h4, hdec]
  rw [← List.drop_drop, List.drop_left' h4]
  simp [hne, h4, List.take_left, List.drop_left]

/-! ## Claims about the framed channel -/

/-- C5: writing any JSON-serializable message as a frame (4-byte
little-endian length prefix, then the encoded payload) and reading that
frame back yields an equivalent message: `read_message` after
`send_message` round-trips the payload.  The JSON codec is the external
stdlib collaborator, assumed to round-trip serializable values. -/
theorem c5_frame_roundtrip {α : Type} (dumps : α → List Nat) (loads : List Nat → Option α)
    (m : α) (rest : List Nat)
    (hcodec : loads (dumps m) = some m) (hlen : (dumps m).length < 4294967296) :
    ∃ f, send_message dumps m = some f ∧ read_message loads (f ++ rest) = .msg m rest := by
  refine ⟨le32enc (dumps m).length ++ dumps m, ?_, ?_⟩
  · simp [send_message, send_frame, hlen]
  · simp only [read_message]
    rw [read_frame_frame _ _ hlen]
    simp [hcodec]

theorem c5_frame_roundtrip_witness :
    ∃ f, send_message (fun _ : Nat => [48]) 7 = some f ∧
      read_message (fun b => if b = [48] then some (7 : Nat) else none) (f ++ [9]) =
        .msg 7 [9] :=
  c5_frame_roundtrip _ _ 7 [9] (by simp) (by norm_num)

/-- C3 fails on the code: `read_message` never compares the number of
payload bytes actually received with the declared length.  The stream
`[10, 0, 0, 0, 123, 125]` declares a 10-byte payload but closes after
two payload bytes (`123, 125`, i.e. an empty JSON object); `read(10)`
returns just those two bytes, and `read_frame` hands them to
`json.loads` in exactly the same way as for the well-formed frame that
declares length 2 — so the truncated frame is silently accepted as a
message whenever the partial payload happens to be valid JSON, instead
of being reported as a protocol error. -/
theorem c3_truncated_frame_accepted :
    read_frame [10, 0, 0, 0, 123, 125] = .framed [123, 125] [] ∧
    read_frame [2, 0, 0, 0, 123, 125] = .framed [123, 125] [] ∧
    ∀ {α : Type} (loads : List Nat → Option α) (m : α), loads [123, 125] = some m →
      read_message loads [10, 0, 0, 0, 123, 125] = .msg m [] := by
  refine ⟨by decide, by decide, ?_⟩
  intro α loads m h
  have hf : read_frame [10, 0, 0, 0, 123, 125] = .framed [123, 125] [] := by decide
  simp only [read_message, hf, h]

theorem c3_truncated_frame_accepted_witness :
    read_message (fun b => if b = ([123, 125] : List Nat) then some 0 else none)
      [10, 0, 0, 0, 123, 125] = .msg 0 [] :=
  c3_truncated_frame_accepted.2.2 _ 0 (by simp)

/-- All interleavings of two sequences of atomic write operations: the
scheduler may order the two writers' `buffer.write` calls arbitrarily,
but each writer's own calls stay in their program order. -/
inductive Interleaved {α : Type} : List α → List α → List α → Prop where
  | nil : Interleaved [] [] []
  | left {xs ys zs} (x : α) : Interleaved xs ys zs → Interleaved (x :: xs) ys (x :: zs)
  | right {xs ys zs} (y : α) : Interleaved xs ys zs → Interleaved xs (y :: ys) (y :: zs)

/-- C4 fails on the code: `send_message` takes no lock (the source
declares none), so its two separate `buffer.write` calls can be split
by another thread's frame.  The schedule below — writer A emits the
prefix of payload `[123, 125]`, then writer B emits its whole frame for
payload `[91, 93]`, then A emits its payload — is a valid interleaving
of the unsynchronized write operations, and the reader then decodes a
first frame whose payload `[2, 0]` is neither writer's payload: the
bytes of B's length prefix were consumed as A's payload. -/
theorem c4_frames_interleave :
    Interleaved (sendOps [123, 125]) (sendOps [91, 93])
      [[2, 0, 0, 0], [2, 0, 0, 0], [91, 93], [123, 125]] ∧
    read_frame ([[2, 0, 0, 0], [2, 0, 0, 0], [91, 93], [123, 125]] : List (List Nat)).flatten =
      .framed [2, 0] [0, 0, 91, 93, 123, 125] ∧
    ([2, 0] : List Nat) ≠ [123, 125] ∧ ([2, 0] : List Nat) ≠ [91, 93] := by
  refine ⟨?_, by decide, by decide, by decide⟩
  show Interleaved [[2, 0, 0, 0], [123, 125]] [[2, 0, 0, 0], [91, 93]] _
  exact .left _ (.right _ (.right _ (.left _ .nil)))

/-! ## Total-length derivation (native_host.py lines 103-109)

`int(cl)` is the stdlib integer parser: optional surrounding
whitespace, an optional sign, then a nonempty digit string in which
single underscores may separate digits.  `pyInt` returning `none`
models the `ValueError` it raises, which line 108 turns into
`total = None`. -/

def isPySpace (c : Char) : Bool :=
  c == ' ' || c == '\t' || c == '\n' || c == '\r' || c == '\x0b' || c == '\x0c'

def digitVal (c : Char) : Nat := c.toNat - 48

def pyDigitsAux (acc : Nat) : List Char → Option Nat
  | [] => some acc
  | '_' :: c :: rest =>
    if c.isDigit then pyDigitsAux (10 * acc + digitVal c) rest else none
  | ['_'] => none
  | c :: rest =>
    if c.isDigit then pyDigitsAux (10 * acc + digitVal c) rest else none

def pyDigits : List Char → Option Nat
  | [] => none
  | c :: rest => if c.isDigit then pyDigitsAux (digitVal c) rest else none

def stripPySpace (s : String) : List Char :=
  ((s.toList.dropWhile isPySpace).reverse.dropWhile isPySpace).reverse

def pyInt (s : String) : Option Int :=
  match stripPySpace s with
  | '+' :: rest => (pyDigits rest).map (fun n => (n : Int))
  | '-' :: rest => (pyDigits rest).map (fun n => -(n : Int))
  | l => (pyDigits l).map (fun n => (n : Int))

/-- Python truthiness of `res.getheader('Content-Range')`: `None` and
the empty string are falsy, every other string is truthy. -/
def pyTruthy : Option String → Bool
  | none => false
  | some s => s != ""

/-- Lines 103-109: derive `total` from the `Content-Length` header
value `cl`, the `Content-Range` header value `cr` and the current
`downloaded` count.  `total = int(cl) + downloaded` when `downloaded`
is truthy and a `Content-Range` header is present, else `int(cl)`;
`None` when the header is absent or `int` raises. -/
def computeTotal (cl cr : Option String) (downloaded : Nat) : Option Int :=
  match cl with
  | none => none
  | some s =>
    match pyInt s with
    | none => none
    | some n => if downloaded ≠ 0 ∧ pyTruthy cr then some (n + downloaded) else some n

/-- C6: the reported total is derived from the `Content-Length` header;
on a resume request (`downloaded > 0`) that also carries a
`Content-Range` response header the total is `Content-Length` plus the
already-downloaded offset rather than the absolute header value; when
`Content-Length` is absent or unparsable the total is absent. -/
theorem c6_total_derivation (cr : Option String) (downloaded : Nat) :
    computeTotal none cr downloaded = none ∧
    (∀ s, pyInt s = none → computeTotal (some s) cr downloaded = none) ∧
    (∀ s n, pyInt s = some n → downloaded ≠ 0 → pyTruthy cr = true →
      computeTotal (some s) cr downloaded = some (n + downloaded)) ∧
    (∀ s n, pyInt s = some n → downloaded = 0 ∨ pyTruthy cr = false →
      computeTotal (some s) cr downloaded = some n) := by
  refine ⟨rfl, ?_, ?_, ?_⟩
  · intro s h
    simp [computeTotal, h]
  · intro s n h hd hcr
    simp [computeTotal, h, hd, hcr]
  · intro s n h hor
    rcases hor with h0 | hcr
    · simp [computeTotal, h, h0]
    · simp [computeTotal, h, hcr]

theorem c6_total_derivation_witness :
    computeTotal (some "100") (some "bytes 5-99/100") 5 = some 105 ∧
    computeTotal (some "100") none 0 = some 100 ∧
    computeTotal none (some "bytes 5-99/100") 5 = none ∧
    computeTotal (some "oops") none 3 = none :=
  ⟨(c6_total_derivation (some "bytes 5-99/100") 5).2.2.1 "100" 100 (by decide)
      (by decide) (by decide),
   (c6_total_derivation none 0).2.2.2 "100" 100 (by decide) (Or.inl rfl),
   (c6_total_derivation (some "bytes 5-99/100") 5).1,
   (c6_total_derivation none 3).2.1 "oops" (by decide)⟩

/-! ## Transfer retrieval loop (native_host.py lines 76-154)

`threaded_download` runs against a deterministic fixed-size byte
source: a request carrying `Range: bytes=d-` receives the bytes of the
resource from offset `d` on, and successive `res.read(8192)` calls
return successive 8192-byte chunks of that body.

The control flags `info['pause']` / `info['cancel']` are written
concurrently by the dispatcher; the loop reads them at the top of every
iteration of the chunk loop (lines 126 and 129) and while polling
during a pause (line 132).  A schedule `List Obs` records what those
reads observe, one observation per chunk-loop iteration; an exhausted
schedule means the flags stay false from then on. -/

def chunkSize : Nat := 8192

/-- One chunk-loop iteration's view of the control flags (lines
126-139), plus the possibility that `res.read` raises this iteration
(caught at line 152). -/
inductive Obs where
  | go : Obs
  | pauseThen (cancelAfter : Bool) : Obs
  | cancel : Obs
  | fail (e : String) : Obs
deriving DecidableEq

/-- The messages a transfer emits on the channel (lines 127, 130, 135,
147, 150, 153).  The constant fields `id`, `path`, `finalUrl` and
`status` are omitted: `id` is the fixed `did` of the transfer and the
others are fixed by the request. -/
inductive Event where
  | progress (downloaded : Nat) (total : Option Int) : Event
  | paused (downloaded : Nat) : Event
  | cancelled : Event
  | done (size : Nat) : Event
  | errored (e : String) : Event
deriving DecidableEq

/-- The successive return values of `res.read(chunkSize)` on a body:
nonempty chunks of at most `chunkSize` bytes, then exhaustion. -/
def chunksOf (l : List Nat) : List (List Nat) :=
  if l = [] then [] else l.take chunkSize :: chunksOf (l.drop chunkSize)
termination_by l.length
decreasing_by
  rename_i h
  have : l.length ≠ 0 := fun hl => h (List.eq_nil_of_length_eq_zero hl)
  simp only [List.length_drop, chunkSize]
  omega

/-- How the chunk loop (`while True:` at line 125) ended: `returned`
when the body executed one of the `return` statements at lines 128,
136 and 154 (via the exception handler), `broke` when it fell out of
the loop by `break` (pause resume at line 139, empty chunk at line
142) and control reached line 150. -/
inductive LoopExit where
  | returned : LoopExit
  | broke : LoopExit
deriving DecidableEq

structure InnerResult where
  events : List Event
  file : List Nat
  downloaded : Nat
  exit : LoopExit
deriving DecidableEq

/-- The chunk loop once the schedule is exhausted (flags stay false):
read, write and report each remaining chunk, then break on the empty
read. -/
def drain (total : Option Int) (downloaded : Nat) (file : List Nat) :
    List (List Nat) → InnerResult
  | [] => ⟨[], file, downloaded, .broke⟩
  | c :: cs =>
    let d := downloaded + c.length
    let r := drain total d (file ++ c) cs
    ⟨.progress d total :: r.events, r.file, r.downloaded, r.exit⟩

/-- The chunk loop of lines 125-148.  Each iteration first checks
`cancel` (line 126), then `pause` (line 129) — a pause emits the
`paused` event and polls until the flags resolve to a cancel (lines
134-136) or a resume, which sets `mode = 'ab'` and breaks (lines
138-139) — then reads a chunk; a nonempty chunk is written, counted
and reported (lines 143-147), an empty chunk breaks (line 142). -/
def inner_loop (total : Option Int) (downloaded : Nat) (file : List Nat) :
    List (List Nat) → List Obs → InnerResult
  | chunks, [] => drain total downloaded file chunks
  | _, .cancel :: _ => ⟨[.cancelled], file, downloaded, .returned⟩
  | _, .pauseThen true :: _ => ⟨[.paused downloaded, .cancelled], file, downloaded, .returned⟩
  | _, .pauseThen false :: _ => ⟨[.paused downloaded], file, downloaded, .broke⟩
  | _, .fail e :: _ => ⟨[.errored e], file, downloaded, .returned⟩
  | [], .go :: _ => ⟨[], file, downloaded, .broke⟩
  | c :: cs, .go :: tl =>
    let d := downloaded + c.length
    let r := inner_loop total d (file ++ c) cs tl
    ⟨.progress d total :: r.events, r.file, r.downloaded, r.exit⟩

/-- Lines 97-98: the `Range` header added when `downloaded` is truthy. -/
def request_range (downloaded : Nat) : Option String :=
  if downloaded ≠ 0 then some ("bytes=" ++ toString downloaded ++ "-") else none

/-- The deterministic fixed-size byte source honouring that header: a
request at offset `downloaded` receives the rest of the resource. -/
def server_body (resource : List Nat) (downloaded : Nat) : List Nat :=
  resource.drop downloaded

structure DownloadRun where
  events : List Event
  file : List Nat
  downloaded : Nat
deriving DecidableEq

/-- One iteration of the outer `while True:` of lines 90-151: issue the
request (with `request_range downloaded`), derive `total` (lines
103-109), open the destination — `'wb'` truncates, `'ab'` keeps the
bytes already written — and run the chunk loop.  Every exit of the
chunk loop is followed by a `return`: `returned` exits left the
function at lines 128, 136 or 154, and a `broke` exit falls through to
line 150, which sends `done` with the current count and returns at line
151.  In particular the outer loop never runs a second iteration. -/
def finish (r : InnerResult) : DownloadRun :=
  match r.exit with
  | .returned => ⟨r.events, r.file, r.downloaded⟩
  | .broke => ⟨r.events ++ [.done r.downloaded], r.file, r.downloaded⟩

def outer_iteration (resource : List Nat) (cl cr : Option String)
    (downloaded : Nat) (appendMode : Bool) (file : List Nat) (sched : List Obs) :
    DownloadRun :=
  finish (inner_loop (computeTotal cl cr downloaded) downloaded
    (if appendMode then file else [])
    (chunksOf (server_body resource downloaded)) sched)

/-- `threaded_download` for a transfer created by `download_start`:
line 87 reads `downloaded = info.get('downloaded', 0) = 0` (the entry
created at line 316 has no `downloaded` key), so line 88 picks mode
`'wb'` and line 97 adds no `Range` header. -/
def threaded_download (resource : List Nat) (cl cr : Option String)
    (sched : List Obs) : DownloadRun :=
  outer_iteration resource cl cr 0 false [] sched

/-! ## Claims about the transfer loop -/

theorem chunksOf_nil : chunksOf [] = [] := by
  unfold chunksOf
  simp

theorem chunksOf_cons (l : List Nat) (h : l ≠ []) :
    chunksOf l = l.take chunkSize :: chunksOf (l.drop chunkSize) := by
  rw [chunksOf.eq_def]
  simp [h]

/-- C1 fails on the code: after a pause is resumed, the `break` at line
139 leaves the chunk loop but control then reaches line 150, which
emits `done` and returns — the outer `while True:` of line 90 never
runs a second iteration, so the request is never re-issued with a
`Range` header and the remaining bytes are never fetched.  For the
3-byte resource `[1, 2, 3]`, a pause observed before the first chunk
followed by a resume ends the transfer with `done`, `downloaded = 0`
and an empty destination file, whereas the fresh uninterrupted download
of the same resource ends with `downloaded = 3` and the full content. -/
theorem c1_resume_loses_data :
    (threaded_download [1, 2, 3] none none [.pauseThen false]).events =
      [.paused 0, .done 0] ∧
    (threaded_download [1, 2, 3] none none [.pauseThen false]).file = [] ∧
    (threaded_download [1, 2, 3] none none [.pauseThen false]).downloaded = 0 ∧
    (threaded_download [1, 2, 3] none none []).events = [.progress 3 none, .done 3] ∧
    (threaded_download [1, 2, 3] none none []).file = [1, 2, 3] ∧
    (threaded_download [1, 2, 3] none none []).downloaded = 3 := by
  have hch : chunksOf [1, 2, 3] = [[1, 2, 3]] := by
    rw [chunksOf_cons _ (by simp),
      show List.take chunkSize [1, 2, 3] = [1, 2, 3] from
        List.take_of_length_le (by simp [chunkSize]),
      show List.drop chunkSize [1, 2, 3] = [] from
        List.drop_eq_nil_of_le (by simp [chunkSize]),
      chunksOf_nil]
  refine ⟨?_, ?_, ?_, ?_, ?_, ?_⟩ <;>
    simp [threaded_download, outer_iteration, finish, server_body, computeTotal, hch,
      inner_loop, drain]

theorem drain_exit (total : Option Int) (d : Nat) (file : List Nat)
    (chunks : List (List Nat)) : (drain total d file chunks).exit = .broke := by
  induction chunks generalizing d file with
  | nil => simp [drain]
  | cons c cs ih => simp [drain, ih]

theorem drain_no_cancel (total : Option Int) (d : Nat) (file : List Nat)
    (chunks : List (List Nat)) : Event.cancelled ∉ (drain total d file chunks).events := by
  induction chunks generalizing d file with
  | nil => simp [drain]
  | cons c cs ih => simp [drain, ih]

theorem getLast?_cons_of_ne_nil {α : Type} (a : α) {l : List α} (h : l ≠ []) :
    (a :: l).getLast? = l.getLast? := by
  cases l with
  | nil => exact absurd rfl h
  | cons b t => exact List.getLast?_cons_cons

theorem inner_loop_cancel_spec (total : Option Int) (d : Nat) (file : List Nat)
    (chunks : List (List Nat)) (sched : List Obs)
    (h : Event.cancelled ∈ (inner_loop total d file chunks sched).events) :
    (inner_loop total d file chunks sched).exit = .returned ∧
    (inner_loop total d file chunks sched).events.count Event.cancelled = 1 ∧
    (inner_loop total d file chunks sched).events.getLast? = some Event.cancelled := by
  induction sched generalizing d file chunks with
  | nil => exact absurd (by simpa [inner_loop] using h) (drain_no_cancel total d file chunks)
  | cons obs tl ih =>
    cases obs with
    | go =>
      cases chunks with
      | nil => simp [inner_loop] at h
      | cons c cs =>
        simp only [inner_loop] at h ⊢
        have hmem : Event.cancelled ∈ (inner_loop total (d + c.length) (file ++ c) cs tl).events := by
          simpa using h
        obtain ⟨hexit, hcount, hlast⟩ := ih _ _ _ hmem
        have hne : (inner_loop total (d + c.length) (file ++ c) cs tl).events ≠ [] := by
          intro hnil
          rw [hnil] at hmem
          exact absurd hmem (List.not_mem_nil _)
        exact ⟨hexit, by simp [hcount], by rw [getLast?_cons_of_ne_nil _ hne]; exact hlast⟩
    | pauseThen b =>
      cases b with
      | false => simp [inner_loop] at h
      | true => simp [inner_loop]
    | cancel => simp [inner_loop]
    | fail e => simp [inner_loop] at h

/-- C2: whenever the retrieval loop observes the cancel flag — at the
top of a chunk iteration or while polling during a pause — it emits
exactly one `cancelled` event and terminates at once: the event trace
of the transfer contains a single `cancelled`, it is the last event,
and in particular no `progress` or `done` event follows it. -/
theorem c2_cancel_terminal (resource : List Nat) (cl cr : Option String) (sched : List Obs)
    (h : Event.cancelled ∈ (threaded_download resource cl cr sched).events) :
    (threaded_download resource cl cr sched).events.count Event.cancelled = 1 ∧
    (threaded_download resource cl cr sched).events.getLast? = some Event.cancelled := by
  unfold threaded_download outer_iteration at h ⊢
  cases hx : (inner_loop (computeTotal cl cr 0) 0 (if false then ([] : List Nat) else [])
      (chunksOf (server_body resource 0)) sched).exit with
  | returned =>
    simp only [finish, hx] at h ⊢
    exact (inner_loop_cancel_spec _ _ _ _ _ h).2
  | broke =>
    simp only [finish, hx] at h ⊢
    have hm : Event.cancelled ∈ (inner_loop (computeTotal cl cr 0) 0
        (if false then ([] : List Nat) else [])
        (chunksOf (server_body resource 0)) sched).events := by
      rcases List.mem_append.mp h with hm | hm
      · exact hm
      · simp at hm
    have hret := (inner_loop_cancel_spec _ _ _ _ _ hm).1
    rw [hx] at hret
    exact absurd hret (by simp)

theorem c2_cancel_terminal_witness :
    (threaded_download [1, 2] none none [Obs.cancel]).events.count Event.cancelled = 1 ∧
    (threaded_download [1, 2] none none [Obs.cancel]).events.getLast? =
      some Event.cancelled :=
  c2_cancel_terminal [1, 2] none none [Obs.cancel]
    (by simp [threaded_download, outer_iteration, finish, inner_loop])

/-- The `downloaded` count reported by an event, when it reports one
(`progress` and `paused` report the live counter, `done` reports
`size = downloaded`). -/
def eventCount : Event → Option Nat
  | .progress d _ => some d
  | .paused d => some d
  | .done s => some s
  | .cancelled => none
  | .errored _ => none

theorem drain_chain (total : Option Int) (d : Nat) (file : List Nat)
    (chunks : List (List Nat)) :
    List.Chain' (· ≤ ·)
      (d :: ((drain total d file chunks).events.filterMap eventCount ++
        [(drain total d file chunks).downloaded])) := by
  induction chunks generalizing d file with
  | nil => simp [drain]
  | cons c cs ih =>
    simp only [drain, List.filterMap_cons, eventCount, List.cons_append]
    exact List.chain'_cons.mpr ⟨Nat.le_add_right d c.length, ih (d + c.length) (file ++ c)⟩

theorem inner_loop_chain (total : Option Int) (d : Nat) (file : List Nat)
    (chunks : List (List Nat)) (sched : List Obs) :
    List.Chain' (· ≤ ·)
      (d :: ((inner_loop total d file chunks sched).events.filterMap eventCount ++
        [(inner_loop total d file chunks sched).downloaded])) := by
  induction sched generalizing d file chunks with
  | nil =>
    simp only [inner_loop]
    exact drain_chain total d file chunks
  | cons obs tl ih =>
    cases obs with
    | go =>
      cases chunks with
      | nil => simp [inner_loop]
      | cons c cs =>
        simp only [inner_loop, List.filterMap_cons, eventCount, List.cons_append]
        exact List.chain'_cons.mpr ⟨Nat.le_add_right d c.length, ih (d + c.length) (file ++ c) cs⟩
    | pauseThen b => cases b <;> simp [inner_loop, eventCount]
    | cancel => simp [inner_loop, eventCount]
    | fail e => simp [inner_loop, eventCount]

theorem drain_file_len (total : Option Int) (d : Nat) (file : List Nat)
    (chunks : List (List Nat)) (h : d = file.length) :
    (drain total d file chunks).downloaded = (drain total d file chunks).file.length := by
  induction chunks generalizing d file with
  | nil => simpa [drain] using h
  | cons c cs ih =>
    simp only [drain]
    exact ih (d + c.length) (file ++ c) (by simp [h])

theorem inner_loop_file_len (total : Option Int) (d : Nat) (file : List Nat)
    (chunks : List (List Nat)) (sched : List Obs) (h : d = file.length) :
    (inner_loop total d file chunks sched).downloaded =
      (inner_loop total d file chunks sched).file.length := by
  induction sched generalizing d file chunks with
  | nil =>
    simp only [inner_loop]
    exact drain_file_len total d file chunks h
  | cons obs tl ih =>
    cases obs with
    | go =>
      cases chunks with
      | nil => simpa [inner_loop] using h
      | cons c cs =>
        simp only [inner_loop]
        exact ih (d + c.length) (file ++ c) cs (by simp [h])
    | pauseThen b => cases b <;> simpa [inner_loop] using h
    | cancel => simpa [inner_loop] using h
    | fail e => simpa [inner_loop] using h

/-- C8: over the whole lifetime of a transfer the `downloaded` counts
reported by its successive events form a non-decreasing sequence —
each chunk write increases the count by the length of the written
chunk and every other step (pause, cancel, error, completion) leaves
it unchanged — and the final count equals the number of bytes
persisted to the destination file. -/
theorem c8_downloaded_monotone (resource : List Nat) (cl cr : Option String)
    (sched : List Obs) :
    List.Chain' (· ≤ ·)
      ((threaded_download resource cl cr sched).events.filterMap eventCount) ∧
    (threaded_download resource cl cr sched).downloaded =
      (threaded_download resource cl cr sched).file.length := by
  unfold threaded_download outer_iteration
  have hchain := inner_loop_chain (computeTotal cl cr 0) 0 (if false then ([] : List Nat) else [])
    (chunksOf (server_body resource 0)) sched
  have hfile := inner_loop_file_len (computeTotal cl cr 0) 0 (if false then ([] : List Nat) else [])
    (chunksOf (server_body resource 0)) sched (by simp)
  cases hx : (inner_loop (computeTotal cl cr 0) 0 (if false then ([] : List Nat) else [])
      (chunksOf (server_body resource 0)) sched).exit with
  | returned =>
    simp only [finish, hx]
    refine ⟨?_, hfile⟩
    exact (List.chain'_append.mp hchain.tail).1
  | broke =>
    simp only [finish, hx]
    refine ⟨?_, hfile⟩
    have := hchain.tail
    simpa [List.filterMap_append, eventCount] using this

/-! ## Dispatcher and registry (native_host.py lines 73, 300-359)

Decoded messages are JSON objects, per the protocol documented in the
module docstring ("Messages are JSON objects"); `json.loads` returns a
dict, modelled as an association list with distinct keys.  `msg.get(k)`
is `dictGet`. -/

/-- JSON values as returned by `json.loads` (numbers restricted to
integers, which covers every message field the host produces or
inspects). -/
inductive J where
  | null : J
  | bool (b : Bool) : J
  | num (n : Int) : J
  | str (s : String) : J
  | arr (l : List J) : J
  | obj (l : List (String × J)) : J

/-- A decoded inbound or outbound message: a JSON object. -/
def Msg : Type := List (String × J)

/-- `d.get(k)` on a dict with string keys. -/
def dictGet {α : Type} (l : List (String × α)) (k : String) : Option α :=
  match l with
  | [] => none
  | p :: rest => if p.1 = k then some p.2 else dictGet rest k

/-- One `DOWNLOADS[did]` entry as created at line 316 and mutated by
the flag handlers.  The `thread` handle (line 318) and the fields the
transfer thread itself writes (`downloaded`, `path`) are outside the
dispatcher's state and are not modelled here. -/
structure Entry where
  url : Option J
  pause : Bool
  cancel : Bool

/-- Dispatcher state: the module-level `DOWNLOADS` registry (line 73)
plus the supply of fresh identifiers.  `str(uuid.uuid4())` at line 315
is modelled by a counter-indexed opaque token: nonempty and
process-unique. -/
structure HostState where
  downloads : List (String × Entry)
  ctr : Nat

def uuid4 (ctr : Nat) : String := "uuid-" ++ toString ctr

/-- `DOWNLOADS[did]['pause'] = True` etc.: update one entry in place,
leaving every key and every other entry unchanged. -/
def setEntry : List (String × Entry) → String → (Entry → Entry) → List (String × Entry)
  | [], _, _ => []
  | p :: rest, k, f =>
    (if p.1 = k then (p.1, f p.2) else p) :: setEntry rest k f

def errUnknownType : Msg := [("ok", J.bool false), ("error", J.str "unknown type")]

def errUnknownId : Msg := [("ok", J.bool false), ("error", J.str "unknown id")]

/-- `t == 'name'` in Python: true exactly when `t` is that string
(`None` and non-string values compare unequal to every string). -/
def isTag (t : Option J) (name : String) : Bool :=
  match t with
  | some (.str s) => s = name
  | _ => false

/-- Lines 321-341, common shape of the `download_pause` /
`download_resume` / `download_cancel` handlers: read `msg.get('id')`;
when it is truthy (a nonempty string — no other value can be a
registry key) and present in `DOWNLOADS`, update the entry's flag and
acknowledge, otherwise answer `unknown id`. -/
def flag_command (st : HostState) (m : Msg) (f : Entry → Entry) : HostState × List Msg :=
  match dictGet m "id" with
  | some (J.str d) =>
    if d ≠ "" ∧ (dictGet st.downloads d).isSome then
      (⟨setEntry st.downloads d f, st.ctr⟩, [[("ok", J.bool true), ("id", J.str d)]])
    else (st, [errUnknownId])
  | _ => (st, [errUnknownId])

/-- Lines 313-320, the `download_start` handler: generate a fresh
identifier, register the transfer with both control flags clear, start
its thread (the thread's own behaviour is `threaded_download`), and
acknowledge with the identifier. -/
def start_command (st : HostState) (m : Msg) : HostState × List Msg :=
  (⟨st.downloads ++ [(uuid4 st.ctr, ⟨dictGet m "url", false, false⟩)], st.ctr + 1⟩,
   [[("ok", J.bool true), ("id", J.str (uuid4 st.ctr))]])

/-- The `if/elif` chain of lines 305-352.  The synchronous handlers
that only do external I/O (`preroll`, `move`, `choose_folder`, `stat_path`)
are an oracle `ext`; `download` is the fixed legacy refusal of line
70. -/
def dispatch (ext : Msg → Msg) (st : HostState) (m : Msg) : HostState × List Msg :=
  let t := dictGet m "type"
  if isTag t "preroll" then (st, [ext m])
  else if isTag t "download" then
    (st, [[("ok", J.bool false), ("error", J.str "use interactive download via connectNative")]])
  else if isTag t "download_start" then start_command st m
  else if isTag t "download_pause" then flag_command st m (fun e => ⟨e.url, true, e.cancel⟩)
  else if isTag t "download_resume" then flag_command st m (fun e => ⟨e.url, false, e.cancel⟩)
  else if isTag t "download_cancel" then flag_command st m (fun e => ⟨e.url, e.pause, true⟩)
  else if isTag t "move" then (st, [ext m])
  else if isTag t "choose_folder" then (st, [ext m])
  else if isTag t "stat_path" then (st, [ext m])
  else (st, [errUnknownType])

/-- The reader loop of `main` at the level of already-decoded
messages: dispatch each in turn, collecting the response frames. -/
def run_dispatch (ext : Msg → Msg) : HostState → List Msg → HostState × List Msg
  | st, [] => (st, [])
  | st, m :: rest =>
    ((run_dispatch ext (dispatch ext st m).1 rest).1,
     (dispatch ext st m).2 ++ (run_dispatch ext (dispatch ext st m).1 rest).2)

/-- How `main` (lines 300-352) ends: `eosExit` models `read_message`
returning `None`, which breaks the loop and lets `main` return;
`crashed` models an uncaught exception escaping the loop
(`struct.error` on a short prefix, or a `json.loads` failure). -/
inductive Outcome where
  | eosExit : Outcome
  | crashed : Outcome
deriving DecidableEq

theorem read_frame_rest_lt {s data rest : List Nat}
    (h : read_frame s = .framed data rest) : rest.length < s.length := by
  simp only [read_frame] at h
  split at h
  · simp at h
  · split at h
    · simp at h
    · rename_i hne hlen
      cases h
      have hs : s ≠ [] := by
        intro hnil
        exact hne (by simp [hnil])
      have hpos : 0 < s.length := List.length_pos.mpr hs
      simp only [List.length_drop]
      omega

/-- `main` over an inbound byte stream: repeatedly `read_message`,
dispatch, and continue on the remaining bytes; `None` breaks the loop
(line 304).  Returns the final registry state, the ordered synchronous
response frames, and how the loop ended. -/
def main (ext : Msg → Msg) (loads : List Nat → Option Msg) (st : HostState)
    (s : List Nat) : HostState × List Msg × Outcome :=
  match h : read_frame s with
  | .eos => (st, [], .eosExit)
  | .headerError _ => (st, [], .crashed)
  | .framed data rest =>
    match loads data with
    | none => (st, [], .crashed)
    | some m =>
      ((main ext loads (dispatch ext st m).1 rest).1,
       (dispatch ext st m).2 ++ (main ext loads (dispatch ext st m).1 rest).2.1,
       (main ext loads (dispatch ext st m).1 rest).2.2)
termination_by s.length
decreasing_by exact read_frame_rest_lt h

/-- How the whole script run ends (lines 355-359): `main()` either
returns normally, is interrupted (`KeyboardInterrupt`, swallowed by the
handler), or raises some other exception which escapes and aborts the
interpreter with a traceback. -/
inductive PyExit where
  | normalReturn : PyExit
  | keyboardInterrupt : PyExit
  | otherException : PyExit

/-- The process exit code produced by each way `main()` can end:
`some 0` is a clean exit, `none` an abnormal (traceback) termination. -/
def process_exit : PyExit → Option Nat
  | .normalReturn => some 0
  | .keyboardInterrupt => some 0
  | .otherException => none

def outcome_exit : Outcome → PyExit
  | .eosExit => .normalReturn
  | .crashed => .otherException

/-! ## Claims about the dispatcher -/

/-- The command tags the `if/elif` chain of lines 306-350 recognizes. -/
def recognized_tags : List String :=
  ["preroll", "download", "download_start", "download_pause", "download_resume",
   "download_cancel", "move", "choose_folder", "stat_path"]

/-- C7: a decoded message whose tag is not one of the recognized tags
falls through the whole `if/elif` chain to the `else` of line 351: the
dispatcher answers the uniform error response (ok false, error
"unknown type") without crashing, leaves the registry untouched, and
the reader loop goes on to process the next frame. -/
theorem c7_unknown_type (ext : Msg → Msg) (st : HostState) (m : Msg) (rest : List Msg)
    (h : ∀ name ∈ recognized_tags, isTag (dictGet m "type") name = false) :
    dispatch ext st m = (st, [errUnknownType]) ∧
    run_dispatch ext st (m :: rest) =
      ((run_dispatch ext st rest).1, errUnknownType :: (run_dispatch ext st rest).2) := by
  have h1 := h "preroll" (by simp [recognized_tags])
  have h2 := h "download" (by simp [recognized_tags])
  have h3 := h "download_start" (by simp [recognized_tags])
  have h4 := h "download_pause" (by simp [recognized_tags])
  have h5 := h "download_resume" (by simp [recognized_tags])
  have h6 := h "download_cancel" (by simp [recognized_tags])
  have h7 := h "move" (by simp [recognized_tags])
  have h8 := h "choose_folder" (by simp [recognized_tags])
  have h9 := h "stat_path" (by simp [recognized_tags])
  have hd : dispatch ext st m = (st, [errUnknownType]) := by
    simp [dispatch, h1, h2, h3, h4, h5, h6, h7, h8, h9]
  refine ⟨hd, ?_⟩
  simp [run_dispatch, hd]

theorem c7_unknown_type_witness :
    dispatch (fun _ => []) ⟨[], 0⟩ [("type", J.str "bogus")] = (⟨[], 0⟩, [errUnknownType]) ∧
    run_dispatch (fun _ => []) ⟨[], 0⟩ [[("type", J.str "bogus")]] =
      ((run_dispatch (fun _ => []) ⟨[], 0⟩ []).1,
       errUnknownType :: (run_dispatch (fun _ => []) ⟨[], 0⟩ []).2) :=
  c7_unknown_type (fun _ => []) ⟨[], 0⟩ [("type", J.str "bogus")] []
    (by intro name hname; fin_cases hname <;> rfl)

theorem main_eos (ext : Msg → Msg) (loads : List Nat → Option Msg) (st : HostState)
    {s : List Nat} (he : read_frame s = .eos) :
    main ext loads st s = (st, [], .eosExit) := by
  rw [main.eq_def]
  split
  · rfl
  · rename_i heq
    rw [he] at heq
    cases heq
  · rename_i heq
    rw [he] at heq
    cases heq

theorem main_framed (ext : Msg → Msg) (loads : List Nat → Option Msg) (st : HostState)
    {s data rest : List Nat} {m : Msg}
    (hf : read_frame s = .framed data rest) (hl : loads data = some m) :
    main ext loads st s =
      ((main ext loads (dispatch ext st m).1 rest).1,
       (dispatch ext st m).2 ++ (main ext loads (dispatch ext st m).1 rest).2.1,
       (main ext loads (dispatch ext st m).1 rest).2.2) := by
  rw [main.eq_def]
  split
  · rename_i heq
    rw [hf] at heq
    cases heq
  · rename_i heq
    rw [hf] at heq
    cases heq
  · rename_i d r heq
    rw [hf] at heq
    obtain ⟨rfl, rfl⟩ := FrameRead.framed.inj heq
    rw [hl]

/-- The byte stream carrying a sequence of well-formed frames. -/
def frame_bytes (p : List Nat) : List Nat := le32enc p.length ++ p

/-- C9: when the inbound stream consists of well-formed frames followed
by closure, `read_message` eventually signals end-of-stream (`None`),
the reader loop breaks out (line 304), `main` returns normally, and the
process exits cleanly with code 0; a `KeyboardInterrupt` is likewise
swallowed by the top-level handler (lines 356-359) and produces a clean
exit 0, not an error. -/
theorem c9_clean_exit (ext : Msg → Msg) (loads : List Nat → Option Msg) (st : HostState)
    (ps : List (List Nat))
    (h : ∀ p ∈ ps, p.length < 4294967296 ∧ (loads p).isSome) :
    (main ext loads st ((ps.map frame_bytes).flatten)).2.2 = .eosExit ∧
    process_exit (outcome_exit (main ext loads st ((ps.map frame_bytes).flatten)).2.2) =
      some 0 ∧
    process_exit .keyboardInterrupt = some 0 := by
  have key : ∀ (qs : List (List Nat)) (st1 : HostState),
      (∀ p ∈ qs, p.length < 4294967296 ∧ (loads p).isSome) →
      (main ext loads st1 ((qs.map frame_bytes).flatten)).2.2 = .eosExit := by
    intro qs
    induction qs with
    | nil =>
      intro st1 _
      rw [main_eos ext loads st1 (by simp [read_frame])]
    | cons p qs ih =>
      intro st1 hall
      obtain ⟨hlen, hsome⟩ := hall p (by simp)
      obtain ⟨m, hm⟩ := Option.isSome_iff_exists.mp hsome
      have hstream : (((p :: qs).map frame_bytes).flatten : List Nat) =
          le32enc p.length ++ p ++ ((qs.map frame_bytes).flatten) := by
        simp [frame_bytes, List.append_assoc]
      rw [hstream, main_framed ext loads st1 (read_frame_frame p _ hlen) hm]
      exact ih _ (fun q hq => hall q (by simp [hq]))
  have h1 := key ps st h
  exact ⟨h1, by rw [h1]; rfl, rfl⟩

theorem c9_clean_exit_witness :
    (main (fun _ => ([] : Msg)) (fun _ => (none : Option Msg)) ⟨[], 0⟩
        ((([] : List (List Nat)).map frame_bytes).flatten)).2.2 = .eosExit ∧
    process_exit (outcome_exit (main (fun _ => ([] : Msg)) (fun _ => (none : Option Msg))
        ⟨[], 0⟩ ((([] : List (List Nat)).map frame_bytes).flatten)).2.2) = some 0 ∧
    process_exit .keyboardInterrupt = some 0 :=
  c9_clean_exit (fun _ => []) (fun _ => none) ⟨[], 0⟩ [] (by simp)

theorem dictGet_setEntry_isSome (l : List (String × Entry)) (k : String) (f : Entry → Entry)
    (k2 : String) : (dictGet (setEntry l k f) k2).isSome = (dictGet l k2).isSome := by
  induction l with
  | nil => rfl
  | cons p rest ih =>
    simp only [setEntry]
    by_cases hk : p.1 = k
    · simp only [if_pos hk, dictGet]
      by_cases hk2 : p.1 = k2
      · simp [if_pos hk2]
      · simp [if_neg hk2, ih]
    · simp only [if_neg hk, dictGet]
      by_cases hk2 : p.1 = k2
      · simp [if_pos hk2]
      · simp [if_neg hk2, ih]

theorem dictGet_append_isSome (l1 l2 : List (String × Entry)) (k : String)
    (h : (dictGet l1 k).isSome = true) : (dictGet (l1 ++ l2) k).isSome = true := by
  induction l1 with
  | nil => simp [dictGet] at h
  | cons p rest ih =>
    obtain ⟨k1, v⟩ := p
    by_cases hk : k1 = k
    · simp [dictGet, hk]
    · simp only [dictGet, hk, List.cons_append, if_neg] at h ⊢
      exact ih h

theorem dictGet_append_singleton (l : List (String × Entry)) (k : String) (v : Entry) :
    (dictGet (l ++ [(k, v)]) k).isSome = true := by
  induction l with
  | nil => simp [dictGet]
  | cons p rest ih =>
    obtain ⟨k1, w⟩ := p
    by_cases hk : k1 = k <;> simp [dictGet, hk, ih]

theorem flag_command_preserves (st : HostState) (m : Msg) (f : Entry → Entry) (d : String)
    (h : (dictGet st.downloads d).isSome = true) :
    (dictGet (flag_command st m f).1.downloads d).isSome = true := by
  unfold flag_command
  split
  · split
    · simpa [dictGet_setEntry_isSome] using h
    · simpa using h
  · simpa using h

theorem dispatch_preserves (ext : Msg → Msg) (st : HostState) (m : Msg) (d : String)
    (h : (dictGet st.downloads d).isSome = true) :
    (dictGet (dispatch ext st m).1.downloads d).isSome = true := by
  simp only [dispatch]
  split_ifs
  · exact h
  · exact h
  · simp only [start_command]
    exact dictGet_append_isSome _ _ _ h
  · exact flag_command_preserves _ _ _ _ h
  · exact flag_command_preserves _ _ _ _ h
  · exact flag_command_preserves _ _ _ _ h
  · exact h
  · exact h
  · exact h
  · exact h

theorem run_dispatch_preserves (ext : Msg → Msg) (msgs : List Msg) (st : HostState)
    (d : String) (h : (dictGet st.downloads d).isSome = true) :
    (dictGet (run_dispatch ext st msgs).1.downloads d).isSome = true := by
  induction msgs generalizing st with
  | nil => simpa [run_dispatch] using h
  | cons m rest ih =>
    simp only [run_dispatch]
    exact ih _ (dispatch_preserves ext st m d h)

theorem isTag_eq {t : Option J} {n : String} (h : isTag t n = true) :
    t = some (J.str n) := by
  cases t with
  | none => simp [isTag] at h
  | some j =>
    cases j with
    | str s =>
      simp [isTag] at h
      subst h
      rfl
    | null => simp [isTag] at h
    | bool b => simp [isTag] at h
    | num k => simp [isTag] at h
    | arr l => simp [isTag] at h
    | obj l => simp [isTag] at h

theorem flag_command_ok (st : HostState) (m : Msg) (f : Entry → Entry) (d : String)
    (hid : dictGet m "id" = some (J.str d)) (hne : d ≠ "")
    (hmem : (dictGet st.downloads d).isSome = true) :
    flag_command st m f = (⟨setEntry st.downloads d f, st.ctr⟩,
      [[("ok", J.bool true), ("id", J.str d)]]) := by
  unfold flag_command
  rw [hid]
  simp [hne, hmem]

/-- C10: the registry never forgets an identifier.  No handler and no
transfer ever deletes a `DOWNLOADS` entry, so (1) any identifier
present in the registry is still present after dispatching any further
command sequence; (2) `download_start` registers its fresh identifier
and acknowledges with it; and (3) a later `download_pause` /
`download_resume` / `download_cancel` naming a registered identifier
always answers ok true with that identifier, and its only effect on
the registry is updating that entry's control flag — the set of
registered identifiers is unchanged (the flag write is simply never
observed by a retrieval loop that has already terminated). -/
theorem c10_registry_never_removes (ext : Msg → Msg) :
    (∀ st msgs d, (dictGet st.downloads d).isSome = true →
      (dictGet (run_dispatch ext st msgs).1.downloads d).isSome = true) ∧
    (∀ st m, isTag (dictGet m "type") "download_start" = true →
      (dispatch ext st m).2 = [[("ok", J.bool true), ("id", J.str (uuid4 st.ctr))]] ∧
      (dictGet (dispatch ext st m).1.downloads (uuid4 st.ctr)).isSome = true) ∧
    (∀ st m d name, name ∈ ["download_pause", "download_resume", "download_cancel"] →
      isTag (dictGet m "type") name = true →
      dictGet m "id" = some (J.str d) → d ≠ "" →
      (dictGet st.downloads d).isSome = true →
      (dispatch ext st m).2 = [[("ok", J.bool true), ("id", J.str d)]] ∧
      ∀ d2, (dictGet (dispatch ext st m).1.downloads d2).isSome =
        (dictGet st.downloads d2).isSome) := by
  refine ⟨fun st msgs d h => run_dispatch_preserves ext msgs st d h, ?_, ?_⟩
  · intro st m h
    have ht := isTag_eq h
    have e1 : isTag (some (J.str "download_start")) "preroll" = false := by decide
    have e2 : isTag (some (J.str "download_start")) "download" = false := by decide
    have e3 : isTag (some (J.str "download_start")) "download_start" = true := by decide
    have hd : dispatch ext st m = start_command st m := by
      simp only [dispatch, ht, e1, e2, e3, if_true, if_false, Bool.false_eq_true]
    rw [hd]
    exact ⟨rfl, dictGet_append_singleton _ _ _⟩
  · intro st m d name hname h hid hne hmem
    have ht := isTag_eq h
    have hflag : ∃ f : Entry → Entry,
        dispatch ext st m = flag_command st m f := by
      simp only [List.mem_cons, List.not_mem_nil, or_false] at hname
      rcases hname with rfl | rfl | rfl
      · refine ⟨fun e => ⟨e.url, true, e.cancel⟩, ?_⟩
        have e1 : isTag (some (J.str "download_pause")) "preroll" = false := by decide
        have e2 : isTag (some (J.str "download_pause")) "download" = false := by decide
        have e3 : isTag (some (J.str "download_pause")) "download_start" = false := by decide
        have e4 : isTag (some (J.str "download_pause")) "download_pause" = true := by decide
        simp only [dispatch, ht, e1, e2, e3, e4, Bool.false_eq_true, if_true, if_false]
      · refine ⟨fun e => ⟨e.url, false, e.cancel⟩, ?_⟩
        have e1 : isTag (some (J.str "download_resume")) "preroll" = false := by decide
        have e2 : isTag (some (J.str "download_resume")) "download" = false := by decide
        have e3 : isTag (some (J.str "download_resume")) "download_start" = false := by decide
        have e4 : isTag (some (J.str "download_resume")) "download_pause" = false := by decide
        have e5 : isTag (some (J.str "download_resume")) "download_resume" = true := by decide
        simp only [dispatch, ht, e1, e2, e3, e4, e5, Bool.false_eq_true, if_true, if_false]
      · refine ⟨fun e => ⟨e.url, e.pause, true⟩, ?_⟩
        have e1 : isTag (some (J.str "download_cancel")) "preroll" = false := by decide
        have e2 : isTag (some (J.str "download_cancel")) "download" = false := by decide
        have e3 : isTag (some (J.str "download_cancel")) "download_start" = false := by decide
        have e4 : isTag (some (J.str "download_cancel")) "download_pause" = false := by decide
        have e5 : isTag (some (J.str "download_cancel")) "download_resume" = false := by decide
        have e6 : isTag (some (J.str "download_cancel")) "download_cancel" = true := by decide
        simp only [dispatch, ht, e1, e2, e3, e4, e5, e6, Bool.false_eq_true, if_true,
          if_false]
    obtain ⟨f, hf⟩ := hflag
    rw [hf, flag_command_ok st m f d hid hne hmem]
    exact ⟨rfl, fun d2 => dictGet_setEntry_isSome _ _ _ _⟩

theorem c10_registry_never_removes_witness :
    (dictGet (run_dispatch (fun _ => []) ⟨[("a", ⟨none, false, false⟩)], 0⟩
        [[("type", J.str "bogus")]]).1.downloads "a").isSome = true ∧
    (dispatch (fun _ => []) ⟨[("a", ⟨none, false, false⟩)], 0⟩
        [("type", J.str "download_pause"), ("id", J.str "a")]).2 =
      [[("ok", J.bool true), ("id", J.str "a")]] :=
  ⟨(c10_registry_never_removes (fun _ => [])).1 ⟨[("a", ⟨none, false, false⟩)], 0⟩
      [[("type", J.str "bogus")]] "a" rfl,
   ((c10_registry_never_removes (fun _ => [])).2.2 ⟨[("a", ⟨none, false, false⟩)], 0⟩
      [("type", J.str "download_pause"), ("id", J.str "a")] "a" "download_pause"
      (by simp) rfl rfl (by decide) rfl).1⟩

end NativeHost
